import Mathlib

/-!
Verification of the slash-engine 2D physics core.

The development shallowly embeds the engine sources: the data model
(Vector, Impulse, Object, World, Engine), the per-type physics
integrator of engine/update.go, the engine API of engine/engine.go and
the snapshot codec of engine/codec.go.  Scalars are embedded in an
arbitrary linear ordered field; concrete evaluations instantiate the
field with the rationals, while the claim about exponential impulse
decay instantiates it with the reals and models math.Pow by Real.rpow.
The float64 library power function is otherwise kept abstract as a
function parameter named pw.  Pointer chains (the Impulse linked list)
are embedded as Lean lists, and the Go map of objects as a list of
objects looked up by ID, matching the World invariant that every key
equals the ID of its object.
-/

namespace SlashEngine

/-- 2D vector with X and Y components, from the model source. -/
structure Vec2 (K : Type) where
  X : K
  Y : K
deriving DecidableEq

/-- Object categories, in the declaration order of the Go enum. -/
inductive ObjectType where
  | Other
  | Creature
  | Projectile
  | Effect
  | Terrain
  | Structure
  | Item
deriving DecidableEq

/-- One impulse node: direction and damping factor.  The Next pointer of
the Go struct is embedded as the tail of a Lean list, so a chain head
pointer becomes a list of nodes in head-first order. -/
structure Impulse (K : Type) where
  Direction : Vec2 K
  Damping : K
deriving DecidableEq

/-- Game object, from the model source. -/
structure Object (K : Type) where
  ID : Int
  type : ObjectType
  Client : Bool
  Size : Vec2 K
  Velocity : Vec2 K
  Position : Vec2 K
  Anchor : Vec2 K
  GravityFactor : K
  Impulses : List (Impulse K)
deriving DecidableEq

/-- Game world: gravity scalar, boundary extents and the object table.
The Go map from id to object is embedded as a list looked up by ID. -/
structure World (K : Type) where
  Gravity : K
  Boundary : Vec2 K
  Objects : List (Object K)
deriving DecidableEq

/-- Threshold below which a float is treated as zero (const negligibleFloat = 0.01). -/
def negligibleFloat (K : Type) [LinearOrderedField K] : K := 1 / 100

variable {K : Type} [LinearOrderedField K]

/-- Absolute value of a float (math.Abs), written out as a conditional
so that it is a plain arithmetic term. -/
def mathAbs (x : K) : K := if x < 0 then -x else x

theorem mathAbs_eq_abs (x : K) : mathAbs x = |x| := by
  unfold mathAbs
  split_ifs with h
  · exact (abs_of_neg h).symm
  · exact (abs_of_nonneg (not_lt.mp h)).symm

/-- Clamp a value between a min and max (func clamp). -/
def clamp (val minValue maxValue : K) : K :=
  if val < minValue then minValue
  else if val > maxValue then maxValue
  else val

/-- Object bottom position Y coordinate (func positionBottomY). -/
def Object.positionBottomY (obj : Object K) : K :=
  obj.Position.Y - obj.Size.Y / 2

/-- Object is on the floor (func onTheFloor): the absolute value of the
bottom Y coordinate is below the negligible threshold. -/
def Object.onTheFloor (obj : Object K) : Prop :=
  mathAbs obj.positionBottomY < negligibleFloat K

instance (obj : Object K) : Decidable obj.onTheFloor :=
  inferInstanceAs (Decidable (_ < _))

/-- Object moving downward (func movingDownward): negative Y velocity. -/
def Object.movingDownward (obj : Object K) : Prop :=
  obj.Velocity.Y < 0

instance (obj : Object K) : Decidable obj.movingDownward :=
  inferInstanceAs (Decidable (_ < _))

/-- Apply gravity to an object (func _applyGravity). -/
def _applyGravity (obj : Object K) (gravity : K) : Object K :=
  if obj.GravityFactor ≠ 0 then
    { obj with Velocity := ⟨obj.Velocity.X, obj.Velocity.Y + -gravity * obj.GravityFactor⟩ }
  else obj

/-- Damping step applied to one impulse direction for an elapsed time
(the switch inside _applyImpulses).  The float64 power function
math.Pow is the parameter pw. -/
def decayDirection (pw : K → K → K) (damping elapsed : K) (dir : Vec2 K) : Vec2 K :=
  if damping = 1 then dir
  else if damping ≤ negligibleFloat K then ⟨0, 0⟩
  else ⟨dir.X * pw damping elapsed, dir.Y * pw damping elapsed⟩

/-- Loop body of _applyImpulses: walk the chain, add each direction
scaled by elapsed to the velocity, decay the direction, and unlink the
node when both decayed components are negligible. -/
def _applyImpulsesAux (pw : K → K → K) (elapsed : K) :
    Vec2 K → List (Impulse K) → Vec2 K × List (Impulse K)
  | vel, [] => (vel, [])
  | vel, imp :: rest =>
    let vel1 : Vec2 K := ⟨vel.X + imp.Direction.X * elapsed, vel.Y + imp.Direction.Y * elapsed⟩
    let dir1 : Vec2 K := decayDirection pw imp.Damping elapsed imp.Direction
    if mathAbs dir1.X < negligibleFloat K ∧ mathAbs dir1.Y < negligibleFloat K then
      _applyImpulsesAux pw elapsed vel1 rest
    else
      let r := _applyImpulsesAux pw elapsed vel1 rest
      (r.1, ⟨dir1, imp.Damping⟩ :: r.2)

/-- Apply impulses to an object with elapsed time (func _applyImpulses). -/
def _applyImpulses (pw : K → K → K) (obj : Object K) (elapsed : K) : Object K :=
  let r := _applyImpulsesAux pw elapsed obj.Velocity obj.Impulses
  { obj with Velocity := r.1, Impulses := r.2 }

/-- Extrapolate object position based on velocity and elapsed time
(func _extrapolatePosition). -/
def _extrapolatePosition (obj : Object K) (elapsed : K) : Object K :=
  { obj with Position := ⟨obj.Position.X + obj.Velocity.X * elapsed,
                          obj.Position.Y + obj.Velocity.Y * elapsed⟩ }

/-- Boundary clamping of _updateCreature and _updateItem: X is clamped
between the half width and the boundary minus the half width, Y between
zero and the boundary minus the height. -/
def clampToBoundary (world : World K) (obj : Object K) : Object K :=
  { obj with Position := ⟨clamp obj.Position.X (obj.Size.X / 2) (world.Boundary.X - obj.Size.X / 2),
                          clamp obj.Position.Y 0 (world.Boundary.Y - obj.Size.Y)⟩ }

/-- Floor contact rule shared by _updateProjectile, _updateCreature and
_updateItem: stop the object if it hits the ground while moving
downward. -/
def floorStop (obj : Object K) : Object K :=
  if obj.onTheFloor ∧ obj.movingDownward then
    { obj with Velocity := ⟨obj.Velocity.X, 0⟩, Position := ⟨obj.Position.X, 0⟩ }
  else obj

/-- Update projectiles based on physics and gravity (func _updateProjectile). -/
def _updateProjectile (pw : K → K → K) (world : World K) (obj : Object K) (elapsed : K) : Object K :=
  floorStop (_extrapolatePosition (_applyImpulses pw (_applyGravity obj world.Gravity) elapsed) elapsed)

/-- Update effects and particles (func _updateEffect): no clamping, no floor rule. -/
def _updateEffect (pw : K → K → K) (world : World K) (obj : Object K) (elapsed : K) : Object K :=
  _extrapolatePosition (_applyImpulses pw (_applyGravity obj world.Gravity) elapsed) elapsed

/-- Update creatures (func _updateCreature): gravity, impulses,
extrapolation, boundary clamping and floor rule. -/
def _updateCreature (pw : K → K → K) (world : World K) (obj : Object K) (elapsed : K) : Object K :=
  floorStop (clampToBoundary world
    (_extrapolatePosition (_applyImpulses pw (_applyGravity obj world.Gravity) elapsed) elapsed))

/-- Update items (func _updateItem): same steps as creatures. -/
def _updateItem (pw : K → K → K) (world : World K) (obj : Object K) (elapsed : K) : Object K :=
  floorStop (clampToBoundary world
    (_extrapolatePosition (_applyImpulses pw (_applyGravity obj world.Gravity) elapsed) elapsed))

/-- Per-object dispatch of Engine.update: structures, terrain and other
objects are left untouched. -/
def updateObject (pw : K → K → K) (world : World K) (elapsed : K) (obj : Object K) : Object K :=
  match obj.type with
  | .Projectile => _updateProjectile pw world obj elapsed
  | .Effect => _updateEffect pw world obj elapsed
  | .Creature => _updateCreature pw world obj elapsed
  | .Item => _updateItem pw world obj elapsed
  | .Structure => obj
  | .Terrain => obj
  | .Other => obj

/-- One integration pass over a world (the loop of Engine.update). -/
def World.update (pw : K → K → K) (world : World K) (elapsed : K) : World K :=
  { world with Objects := world.Objects.map (updateObject pw world elapsed) }

/-- Update ticker state: the interval it was created with and whether it
is still active (time.Ticker with its Stop method). -/
structure Ticker (K : Type) where
  interval : K
  active : Bool
deriving DecidableEq

/-- Engine state (struct Engine).  The two channels are embedded as
generation counters that are bumped each time Run allocates fresh
channels, and wall-clock instants as scalars supplied by the caller. -/
structure Engine (K : Type) where
  world : Option (World K)
  running : Bool
  stopChannel : Nat
  updateSignal : Nat
  updateTicker : Option (Ticker K)
  lastUpdate : K
deriving DecidableEq

/-- A freshly constructed engine value (the zero value of struct Engine). -/
def Engine.new : Engine K :=
  { world := none, running := false, stopChannel := 0, updateSignal := 0,
    updateTicker := none, lastUpdate := 0 }

/-- Stop the update loop (func Stop): a no-op when not running,
otherwise clear the running flag and stop the ticker. -/
def Engine.Stop (e : Engine K) : Engine K :=
  if !e.running then e
  else { e with running := false,
                updateTicker := e.updateTicker.map (fun t => { t with active := false }) }

/-- Run the world update loop (func Run).  A non-positive tick interval
panics, embedded as an error result; when already running or without a
world the state is returned unchanged; otherwise fresh channels are
allocated, the last-update instant is set to now and the ticker is
started. -/
def Engine.Run (e : Engine K) (now tickMS : K) : Except String (Engine K) :=
  if tickMS ≤ 0 then .error "invalid tickMS"
  else if e.running || e.world.isNone then .ok e
  else .ok { e with running := true,
                    stopChannel := e.stopChannel + 1,
                    updateSignal := e.updateSignal + 1,
                    lastUpdate := now,
                    updateTicker := some ⟨tickMS, true⟩ }

/-- Get the world instance, can be nil (func getWorld). -/
def Engine.getWorld (e : Engine K) : Option (World K) := e.world

/-- Look up an object by ID in a world object table. -/
def World.lookup (world : World K) (id : Int) : Option (Object K) :=
  world.Objects.find? (fun o => o.ID == id)

/-- Get the object from the world (func getObject): nil without a world
or when the id is absent. -/
def Engine.getObject (e : Engine K) (id : Int) : Option (Object K) :=
  match e.world with
  | none => none
  | some world => world.lookup id

/-- Create a new world instance (func CreateWorld). -/
def Engine.CreateWorld (e : Engine K) (gravity : K) (boundary : Vec2 K) : Engine K :=
  { e with world := some { Gravity := gravity, Boundary := boundary, Objects := [] } }

/-- Map assignment m[obj.ID] = obj on the object table: replace the
entry with the same ID or add a new one. -/
def World.store (world : World K) (obj : Object K) : World K :=
  if world.Objects.any (fun o => o.ID == obj.ID) then
    { world with Objects := world.Objects.map (fun o => if o.ID == obj.ID then obj else o) }
  else
    { world with Objects := world.Objects ++ [obj] }

/-- Upsert an object to the world (func UpsertObject): a no-op without a world. -/
def Engine.UpsertObject (e : Engine K) (obj : Object K) : Engine K :=
  match e.world with
  | none => e
  | some world => { e with world := some (world.store obj) }

/-- Upsert objects to the world (func UpsertObjects). -/
def Engine.UpsertObjects (e : Engine K) (objects : List (Object K)) : Engine K :=
  match e.world with
  | none => e
  | some world => { e with world := some (objects.foldl World.store world) }

/-- Apply a function to the object with the given ID, if present: the
shared shape of the id-addressed mutation operations, each of which
looks the object up and leaves the engine unchanged when the lookup
fails. -/
def Engine.modifyObject (e : Engine K) (id : Int) (f : Object K → Object K) : Engine K :=
  match e.world with
  | none => e
  | some world =>
      { e with world := some { world with
          Objects := world.Objects.map (fun o => if o.ID == id then f o else o) } }

/-- Add an impulse to an object (func AddImpulse): prepend a node whose
Next pointer is the former chain head. -/
def Engine.AddImpulse (e : Engine K) (id : Int) (direction : Vec2 K) (damping : K) : Engine K :=
  e.modifyObject id (fun o => { o with Impulses := ⟨direction, damping⟩ :: o.Impulses })

/-- Set the velocity of an object (func SetVelocity). -/
def Engine.SetVelocity (e : Engine K) (id : Int) (velocity : Vec2 K) : Engine K :=
  e.modifyObject id (fun o => { o with Velocity := velocity })

/-- Set the position of an object (func SetPosition). -/
def Engine.SetPosition (e : Engine K) (id : Int) (position : Vec2 K) : Engine K :=
  e.modifyObject id (fun o => { o with Position := position })

/-- Set the anchor of an object (func SetAnchor). -/
def Engine.SetAnchor (e : Engine K) (id : Int) (anchor : Vec2 K) : Engine K :=
  e.modifyObject id (fun o => { o with Anchor := anchor })

/-- Remove object by ID (func RemoveObject): delete on the object table. -/
def Engine.RemoveObject (e : Engine K) (id : Int) : Engine K :=
  match e.world with
  | none => e
  | some world =>
      { e with world := some { world with Objects := world.Objects.filter (fun o => !(o.ID == id)) } }

/-- Remove objects by IDs (func RemoveObjects). -/
def Engine.RemoveObjects (e : Engine K) (ids : List Int) : Engine K :=
  match e.world with
  | none => e
  | some world =>
      { e with world := some { world with
          Objects := world.Objects.filter (fun o => !(ids.contains o.ID)) } }

/-- Calculate physics and update object positions (func Engine.update):
skip when no time has passed or no world exists. -/
def Engine.update (pw : K → K → K) (e : Engine K) (elapsed : K) : Engine K :=
  if elapsed ≤ 0 then e
  else
    match e.world with
    | none => e
    | some world => { e with world := some (world.update pw elapsed) }

/-- Modelled from the spec: engine/codec.go drives the
schema-compiler-generated FlatBuffers layer, of which only the Impulse
builders and accessors are among the sources (generated/Game/Impulse.go,
raw offset reads with no validation); the generated Vector, Object and
World code, the root accessor and the FlatBuffers runtime itself are
not.  Per the spec the codec produces a self-describing binary buffer
carrying gravity, boundary and the full object table, with each impulse
chain as a nested recursive record in head-first order.  The buffer is
modelled as a list of typed wire tokens; scalar, integer, boolean and
small-count fields each map to one token. -/
inductive Token (K : Type) where
  | num (x : K)
  | int (n : Int)
  | tag (n : Nat)
  | flag (b : Bool)
deriving DecidableEq

/-- Wire tag of an object type, in the order of the FlatBuffers enum. -/
def objectTypeTag : ObjectType → Nat
  | .Other => 0
  | .Creature => 1
  | .Projectile => 2
  | .Effect => 3
  | .Terrain => 4
  | .Structure => 5
  | .Item => 6

/-- Object type decoded from its wire tag. -/
def objectTypeOfTag : Nat → Option ObjectType
  | 0 => some .Other
  | 1 => some .Creature
  | 2 => some .Projectile
  | 3 => some .Effect
  | 4 => some .Terrain
  | 5 => some .Structure
  | 6 => some .Item
  | _ => none

/-- Serialize a vector (func serializeVector). -/
def serializeVector (v : Vec2 K) : List (Token K) :=
  [.num v.X, .num v.Y]

/-- Serialize one impulse node: direction then damping. -/
def serializeImpulseNode (imp : Impulse K) : List (Token K) :=
  serializeVector imp.Direction ++ [.num imp.Damping]

/-- Serialize an impulse chain (func serializeImpulse): the node count
followed by the nodes in head-first order. -/
def serializeImpulses (chain : List (Impulse K)) : List (Token K) :=
  .tag chain.length :: (chain.map serializeImpulseNode).flatten

/-- The conversion of a Go int to int32 performed by the codec on every
object ID (int32(obj.ID) on encode, widened back by int(obj.ID()) on
decode): the value is wrapped into the int32 range modulo 2 to the 32. -/
def wrapInt32 (n : Int) : Int := (n + 2 ^ 31) % 2 ^ 32 - 2 ^ 31

/-- Serialize an object (func serializeObject), all physics-relevant
fields in declaration order; the ID is narrowed to int32 on the wire. -/
def serializeObject (obj : Object K) : List (Token K) :=
  [.int (wrapInt32 obj.ID), .tag (objectTypeTag obj.type), .flag obj.Client]
    ++ serializeVector obj.Size ++ serializeVector obj.Velocity
    ++ serializeVector obj.Position ++ serializeVector obj.Anchor
    ++ [.num obj.GravityFactor] ++ serializeImpulses obj.Impulses

/-- Serialize a world (func serializeWorldToBytes): gravity, boundary,
then the object table with its length. -/
def serializeWorldToBytes (world : World K) : List (Token K) :=
  .num world.Gravity :: (serializeVector world.Boundary
    ++ [.tag world.Objects.length] ++ (world.Objects.map serializeObject).flatten)

/-- Read one scalar token. -/
def parseNum : List (Token K) → Option (K × List (Token K))
  | .num x :: rest => some (x, rest)
  | _ => none

/-- Read one integer token. -/
def parseInt : List (Token K) → Option (Int × List (Token K))
  | .int n :: rest => some (n, rest)
  | _ => none

/-- Read one count token. -/
def parseTag : List (Token K) → Option (Nat × List (Token K))
  | .tag n :: rest => some (n, rest)
  | _ => none

/-- Read one boolean token. -/
def parseFlag : List (Token K) → Option (Bool × List (Token K))
  | .flag b :: rest => some (b, rest)
  | _ => none

/-- Decode a vector (func deserializeVector). -/
def parseVector (ts : List (Token K)) : Option (Vec2 K × List (Token K)) :=
  (parseNum ts).bind fun p =>
  (parseNum p.2).bind fun q =>
  some (⟨p.1, q.1⟩, q.2)

/-- Decode an object type from its wire tag. -/
def parseType (ts : List (Token K)) : Option (ObjectType × List (Token K)) :=
  (parseTag ts).bind fun p =>
  (objectTypeOfTag p.1).bind fun ty =>
  some (ty, p.2)

/-- Decode one impulse node. -/
def parseImpulseNode (ts : List (Token K)) : Option (Impulse K × List (Token K)) :=
  (parseVector ts).bind fun p =>
  (parseNum p.2).bind fun q =>
  some (⟨p.1, q.1⟩, q.2)

/-- Decode a given number of impulse nodes, preserving order. -/
def parseImpulsesN : Nat → List (Token K) → Option (List (Impulse K) × List (Token K))
  | 0, ts => some ([], ts)
  | n + 1, ts =>
    (parseImpulseNode ts).bind fun p =>
    (parseImpulsesN n p.2).bind fun q =>
    some (p.1 :: q.1, q.2)

/-- Decode an impulse chain (func deserializeImpulse). -/
def parseImpulses (ts : List (Token K)) : Option (List (Impulse K) × List (Token K)) :=
  (parseTag ts).bind fun p => parseImpulsesN p.1 p.2

/-- Decode an object (func deserializeObject). -/
def parseObject (ts : List (Token K)) : Option (Object K × List (Token K)) :=
  (parseInt ts).bind fun pid =>
  (parseType pid.2).bind fun pty =>
  (parseFlag pty.2).bind fun pcl =>
  (parseVector pcl.2).bind fun psz =>
  (parseVector psz.2).bind fun pvl =>
  (parseVector pvl.2).bind fun pps =>
  (parseVector pps.2).bind fun pan =>
  (parseNum pan.2).bind fun pgf =>
  (parseImpulses pgf.2).bind fun pim =>
  some (⟨pid.1, pty.1, pcl.1, psz.1, pvl.1, pps.1, pan.1, pgf.1, pim.1⟩, pim.2)

/-- Decode a given number of objects, preserving order. -/
def parseObjectsN : Nat → List (Token K) → Option (List (Object K) × List (Token K))
  | 0, ts => some ([], ts)
  | n + 1, ts =>
    (parseObject ts).bind fun p =>
    (parseObjectsN n p.2).bind fun q =>
    some (p.1 :: q.1, q.2)

/-- Decode a world from the wire tokens. -/
def parseWorld (ts : List (Token K)) : Option (World K × List (Token K)) :=
  (parseNum ts).bind fun pg =>
  (parseVector pg.2).bind fun pb =>
  (parseTag pb.2).bind fun pn =>
  (parseObjectsN pn.1 pn.2).bind fun po =>
  some (⟨pg.1, pb.1, po.1⟩, po.2)

/-- Decode a world from a buffer (func deserializeWorldFromBytes).  The
source function returns only an optional world and has no failure
channel: nil and empty input yield no world (the guard present in the
source), and a buffer of the wire grammar yields the decoded world.  On
nonempty buffers outside the grammar the source unconditionally walks
the unchecked generated accessors and has no result defined by the
sources (it may panic inside them); the value this model returns on
such buffers is a placeholder that no theorem below depends on. -/
def deserializeWorldFromBytes (data : List (Token K)) : Option (World K) :=
  if data.isEmpty then none
  else
    match parseWorld data with
    | some (world, _) => some world
    | none => none

/-! Helper lemmas shared by several claims. -/

theorem clamp_bounds (v lo hi : K) (h : lo ≤ hi) :
    lo ≤ clamp v lo hi ∧ clamp v lo hi ≤ hi := by
  unfold clamp
  split_ifs with h1 h2 <;> constructor <;> linarith

@[simp] theorem applyGravity_Size (obj : Object K) (g : K) :
    (_applyGravity obj g).Size = obj.Size := by
  unfold _applyGravity; split <;> rfl

@[simp] theorem applyImpulses_Size (pw : K → K → K) (obj : Object K) (e : K) :
    (_applyImpulses pw obj e).Size = obj.Size := rfl

@[simp] theorem extrapolatePosition_Size (obj : Object K) (e : K) :
    (_extrapolatePosition obj e).Size = obj.Size := rfl

@[simp] theorem clampToBoundary_Size (world : World K) (obj : Object K) :
    (clampToBoundary world obj).Size = obj.Size := rfl

@[simp] theorem floorStop_Size (obj : Object K) :
    (floorStop obj).Size = obj.Size := by
  unfold floorStop; split <;> rfl

theorem floorStop_Position_X (obj : Object K) :
    (floorStop obj).Position.X = obj.Position.X := by
  unfold floorStop; split <;> rfl

theorem clampToBoundary_Position (world : World K) (obj : Object K) :
    (clampToBoundary world obj).Position
      = ⟨clamp obj.Position.X (obj.Size.X / 2) (world.Boundary.X - obj.Size.X / 2),
         clamp obj.Position.Y 0 (world.Boundary.Y - obj.Size.Y)⟩ := rfl

/-- After clamping and the floor rule, the position respects the world
boundaries as long as the object fits inside them. -/
theorem floorStop_clamp_bounds (world : World K) (obj : Object K)
    (hx : obj.Size.X ≤ world.Boundary.X) (hy : obj.Size.Y ≤ world.Boundary.Y) :
    obj.Size.X / 2 ≤ (floorStop (clampToBoundary world obj)).Position.X ∧
    (floorStop (clampToBoundary world obj)).Position.X ≤ world.Boundary.X - obj.Size.X / 2 ∧
    0 ≤ (floorStop (clampToBoundary world obj)).Position.Y ∧
    (floorStop (clampToBoundary world obj)).Position.Y ≤ world.Boundary.Y - obj.Size.Y := by
  have hlox : obj.Size.X / 2 ≤ world.Boundary.X - obj.Size.X / 2 := by linarith
  have hloy : (0 : K) ≤ world.Boundary.Y - obj.Size.Y := by linarith
  have hcx := clamp_bounds obj.Position.X (obj.Size.X / 2) (world.Boundary.X - obj.Size.X / 2) hlox
  have hcy := clamp_bounds obj.Position.Y 0 (world.Boundary.Y - obj.Size.Y) hloy
  unfold floorStop
  split
  · refine ⟨hcx.1, hcx.2, le_refl 0, hloy⟩
  · exact ⟨hcx.1, hcx.2, hcy.1, hcy.2⟩

/-- Constant power function used where the value of math.Pow is
irrelevant (no impulse chain in play). -/
def pw0 : ℚ → ℚ → ℚ := fun _ _ => 0

/-! Claim C1.  The spec floor-stop condition reads the position as a
height above the floor, while onTheFloor in the code subtracts half the
height from the Y position; for an object clamped to the ground the two
disagree, so the rule the spec describes never fires there. -/

/-- World of the C1 failing input: no gravity, boundary 100 by 100. -/
def C1world : World ℚ := ⟨0, ⟨100, 100⟩, []⟩

/-- Object of the C1 failing input: a 10 by 10 creature resting at
ground level and moving downward. -/
def C1obj : Object ℚ :=
  ⟨1, .Creature, false, ⟨10, 10⟩, ⟨0, -1⟩, ⟨50, 0⟩, ⟨0, 0⟩, 0, []⟩

/-- The C1 state after gravity, impulses, extrapolation and clamping,
before the floor rule. -/
def C1pre : Object ℚ :=
  clampToBoundary C1world
    (_extrapolatePosition (_applyImpulses pw0 (_applyGravity C1obj C1world.Gravity) 1) 1)

/-- Claim C1: at the failing input the integrated creature satisfies the
floor-stop condition of the spec (position Y treated as height above
the floor is below the threshold, velocity Y negative), yet the code
leaves the state exactly as computed and in particular keeps the
negative vertical velocity, because onTheFloor compares the bottom
coordinate position.y - size.y/2 instead. -/
theorem C1_floor_rule_dead_at_ground :
    C1pre.Position.Y = 0 ∧ C1pre.Velocity.Y = -1 ∧
    mathAbs C1pre.Position.Y < negligibleFloat ℚ ∧ C1pre.movingDownward ∧
    _updateCreature pw0 C1world C1obj 1 = C1pre ∧
    (_updateCreature pw0 C1world C1obj 1).Velocity.Y ≠ 0 := by
  refine ⟨?_, ?_, ?_, ?_, ?_, ?_⟩ <;>
    norm_num [C1pre, C1world, C1obj, _updateCreature, floorStop, clampToBoundary, clamp,
      _extrapolatePosition, _applyImpulses, _applyImpulsesAux, _applyGravity,
      Object.onTheFloor, Object.positionBottomY, Object.movingDownward,
      mathAbs, negligibleFloat, pw0]

/-! Claim C2.  The clamped position respects the boundaries only when
the object fits inside them; with an oversized object the clamp lower
bound exceeds its upper bound and the bounds fail. -/

/-- World of the C2 counterexample: boundary 1 by 1. -/
def C2world : World ℚ := ⟨0, ⟨1, 1⟩, []⟩

/-- Object of the C2 counterexample: a 4 by 4 creature, larger than the
world. -/
def C2obj : Object ℚ :=
  ⟨1, .Creature, false, ⟨4, 4⟩, ⟨0, 0⟩, ⟨0, 5⟩, ⟨0, 0⟩, 0, []⟩

/-- Claim C2 counterexample: for an object larger than the boundary the
integrated position violates both claimed bounds at elapsed time 1. -/
theorem C2_counterexample :
    (0 : ℚ) < 1 ∧
    ¬((_updateCreature pw0 C2world C2obj 1).Position.X ≤ C2world.Boundary.X - C2obj.Size.X / 2) ∧
    ¬(0 ≤ (_updateCreature pw0 C2world C2obj 1).Position.Y) := by
  refine ⟨by norm_num, ?_, ?_⟩ <;>
    norm_num [C2world, C2obj, _updateCreature, floorStop, clampToBoundary, clamp,
      _extrapolatePosition, _applyImpulses, _applyImpulsesAux, _applyGravity,
      Object.onTheFloor, Object.positionBottomY, Object.movingDownward,
      mathAbs, negligibleFloat, pw0]

/-- Claim C2 (amended): for every world, every creature or item object
whose size fits inside the boundary, and every elapsed time e > 0, the
position after one per-type integration pass satisfies
size.x/2 <= position.x <= boundary.x - size.x/2 and
0 <= position.y <= boundary.y - size.y. -/
theorem C2_creature_item_position_bounds (pw : K → K → K) (world : World K)
    (obj : Object K) (e : K) (_he : 0 < e)
    (hx : obj.Size.X ≤ world.Boundary.X) (hy : obj.Size.Y ≤ world.Boundary.Y) :
    (obj.Size.X / 2 ≤ (_updateCreature pw world obj e).Position.X ∧
     (_updateCreature pw world obj e).Position.X ≤ world.Boundary.X - obj.Size.X / 2 ∧
     0 ≤ (_updateCreature pw world obj e).Position.Y ∧
     (_updateCreature pw world obj e).Position.Y ≤ world.Boundary.Y - obj.Size.Y) ∧
    (obj.Size.X / 2 ≤ (_updateItem pw world obj e).Position.X ∧
     (_updateItem pw world obj e).Position.X ≤ world.Boundary.X - obj.Size.X / 2 ∧
     0 ≤ (_updateItem pw world obj e).Position.Y ∧
     (_updateItem pw world obj e).Position.Y ≤ world.Boundary.Y - obj.Size.Y) := by
  have hitem : _updateItem pw world obj e = _updateCreature pw world obj e := rfl
  rw [hitem]
  set mid := _extrapolatePosition (_applyImpulses pw (_applyGravity obj world.Gravity) e) e with hmid
  have hms : mid.Size = obj.Size := by rw [hmid]; simp
  have h := floorStop_clamp_bounds world mid (by rw [hms]; exact hx) (by rw [hms]; exact hy)
  rw [hms] at h
  have hcr : _updateCreature pw world obj e = floorStop (clampToBoundary world mid) := rfl
  rw [hcr]
  exact ⟨⟨h.1, h.2.1, h.2.2.1, h.2.2.2⟩, ⟨h.1, h.2.1, h.2.2.1, h.2.2.2⟩⟩

/-- World of the C2 witness: gravity 5, boundary 100 by 100. -/
def C2wWorld : World ℚ := ⟨5, ⟨100, 100⟩, []⟩

/-- Object of the C2 witness: a falling 10 by 10 creature. -/
def C2wObj : Object ℚ :=
  ⟨1, .Creature, false, ⟨10, 10⟩, ⟨0, -3⟩, ⟨50, 40⟩, ⟨0, 0⟩, 1, []⟩

/-- Claim C2 witness: a 10 by 10 creature in a 100 by 100 world. -/
theorem C2_creature_item_position_bounds_witness :
    (0 : ℚ) < 1 ∧ (10 : ℚ) ≤ 100 ∧
    ((10 : ℚ) / 2 ≤ (_updateCreature pw0 C2wWorld C2wObj 1).Position.X ∧
     (_updateCreature pw0 C2wWorld C2wObj 1).Position.X ≤ (100 : ℚ) - 10 / 2 ∧
     0 ≤ (_updateCreature pw0 C2wWorld C2wObj 1).Position.Y ∧
     (_updateCreature pw0 C2wWorld C2wObj 1).Position.Y ≤ (100 : ℚ) - 10) := by
  have h := (C2_creature_item_position_bounds pw0 C2wWorld C2wObj 1
    (by norm_num) (by norm_num [C2wWorld, C2wObj]) (by norm_num [C2wWorld, C2wObj])).1
  have hb : C2wWorld.Boundary = ⟨100, 100⟩ := rfl
  have hs : C2wObj.Size = ⟨10, 10⟩ := rfl
  rw [hb, hs] at h
  exact ⟨by norm_num, by norm_num, h⟩

/-! Claim C9.  The concrete creature scenario of the spec. -/

/-- Engine of the C9 scenario: world with gravity 9.8, boundary 100 by
100, holding one creature of size 10 at position (50, 90). -/
def C9engine : Engine ℚ :=
  (Engine.new.CreateWorld (49/5) ⟨100, 100⟩).UpsertObject
    ⟨1, .Creature, false, ⟨10, 10⟩, ⟨0, 0⟩, ⟨50, 90⟩, ⟨0, 0⟩, 1, []⟩

/-- Claim C9: one integration pass with elapsed 1 decreases the vertical
velocity by exactly 9.8 and moves the vertical position by the new
velocity, the result staying at most 90. -/
theorem C9_gravity_scenario :
    (C9engine.update pw0 1).getObject 1
      = some ⟨1, .Creature, false, ⟨10, 10⟩, ⟨0, -(49/5)⟩, ⟨50, 401/5⟩, ⟨0, 0⟩, 1, []⟩ ∧
    (401 : ℚ) / 5 = 90 - 49/5 ∧ (401 : ℚ) / 5 ≤ 90 := by
  refine ⟨?_, by norm_num, by norm_num⟩
  norm_num [C9engine, Engine.update, Engine.new, Engine.CreateWorld, Engine.UpsertObject,
    World.store, World.update, updateObject, _updateCreature, floorStop, clampToBoundary,
    clamp, _extrapolatePosition, _applyImpulses, _applyImpulsesAux, _applyGravity,
    Engine.getObject, World.lookup, List.find?, Object.onTheFloor, Object.positionBottomY,
    Object.movingDownward, mathAbs, negligibleFloat, pw0]

/-- A map with a function that fixes every element of a list is the
identity. -/
theorem list_map_id_of_mem {α : Type} (l : List α) (f : α → α) (h : ∀ a ∈ l, f a = a) :
    l.map f = l := by
  induction l with
  | nil => rfl
  | cons x xs ih => simp_all

/-! Claim C7.  Run and Stop lifecycle guards. -/

/-- Claim C7: Run fails fast on a non-positive tick interval, Run while
already running or without a world leaves the engine state unchanged,
and Stop while not running leaves the engine state unchanged. -/
theorem C7_run_stop_guards (e : Engine K) (now tickMS : K) :
    (tickMS ≤ 0 → e.Run now tickMS = .error "invalid tickMS") ∧
    (0 < tickMS → (e.running = true ∨ e.world = none) → e.Run now tickMS = .ok e) ∧
    (e.running = false → e.Stop = e) := by
  refine ⟨?_, ?_, ?_⟩
  · intro h
    unfold Engine.Run
    rw [if_pos h]
  · intro h1 h2
    unfold Engine.Run
    rw [if_neg (not_le.mpr h1), if_pos ?_]
    rcases h2 with hr | hw
    · simp [hr]
    · simp [hw]
  · intro h
    unfold Engine.Stop
    rw [h]
    simp

/-- Claim C7 witness: a fresh engine (not running, no world). -/
theorem C7_run_stop_guards_witness :
    ((Engine.new : Engine ℚ).Run 5 0 = .error "invalid tickMS") ∧
    ((Engine.new : Engine ℚ).Run 5 10 = .ok Engine.new) ∧
    ((Engine.new : Engine ℚ).Stop = Engine.new) :=
  ⟨(C7_run_stop_guards Engine.new 5 0).1 (by norm_num),
   (C7_run_stop_guards Engine.new 5 10).2.1 (by norm_num) (Or.inr rfl),
   (C7_run_stop_guards Engine.new 5 10).2.2 rfl⟩

/-! Claim C8.  Operations addressing a missing world or missing object
id are silent no-ops. -/

/-- Claim C8: when the lookup of the addressed id reports not-found
(missing world or missing object), every id-addressed mutation returns
the engine unchanged; removing a batch of absent ids is a no-op; and
upserts without a world are no-ops. -/
theorem C8_missing_targets_are_noops (e : Engine K) (id : Int) (dir : Vec2 K)
    (damping : K) (vel posn anc : Vec2 K) (obj : Object K) (objs : List (Object K))
    (ids : List Int) (h : e.getObject id = none) :
    e.AddImpulse id dir damping = e ∧ e.SetVelocity id vel = e ∧
    e.SetPosition id posn = e ∧ e.SetAnchor id anc = e ∧ e.RemoveObject id = e ∧
    ((∀ i ∈ ids, e.getObject i = none) → e.RemoveObjects ids = e) ∧
    (e.world = none → e.UpsertObject obj = e ∧ e.UpsertObjects objs = e) := by
  obtain ⟨ew, erun, esc, eus, eut, elu⟩ := e
  cases ew with
  | none =>
    refine ⟨rfl, rfl, rfl, rfl, rfl, fun _ => rfl, fun _ => ⟨rfl, rfl⟩⟩
  | some w =>
    have hfind : w.Objects.find? (fun o => o.ID == id) = none := by
      simpa [Engine.getObject, World.lookup] using h
    have hall : ∀ o ∈ w.Objects, (o.ID == id) = false := by
      intro o ho
      simpa using List.find?_eq_none.mp hfind o ho
    have hmap : ∀ f : Object K → Object K,
        w.Objects.map (fun o => if o.ID == id then f o else o) = w.Objects := by
      intro f
      refine list_map_id_of_mem _ _ (fun o ho => ?_)
      rw [hall o ho]
      rfl
    have hfilter : w.Objects.filter (fun o => !(o.ID == id)) = w.Objects := by
      refine List.filter_eq_self.mpr (fun o ho => ?_)
      rw [hall o ho]
      rfl
    refine ⟨?_, ?_, ?_, ?_, ?_, ?_, ?_⟩
    · simp only [Engine.AddImpulse, Engine.modifyObject, hmap]
    · simp only [Engine.SetVelocity, Engine.modifyObject, hmap]
    · simp only [Engine.SetPosition, Engine.modifyObject, hmap]
    · simp only [Engine.SetAnchor, Engine.modifyObject, hmap]
    · simp only [Engine.RemoveObject, hfilter]
    · intro hids
      have hnotmem : ∀ o ∈ w.Objects, (ids.contains o.ID) = false := by
        intro o ho
        by_contra hc
        have hmem : o.ID ∈ ids := by
          simpa using (Bool.of_not_eq_false hc)
        have hnone : (Engine.mk (some w) erun esc eus eut elu).getObject o.ID = none :=
          hids o.ID hmem
        have hfind2 : w.Objects.find? (fun o2 => o2.ID == o.ID) = none := by
          simpa [Engine.getObject, World.lookup] using hnone
        have := List.find?_eq_none.mp hfind2 o ho
        simp at this
      have hfilter2 : w.Objects.filter (fun o => !(ids.contains o.ID)) = w.Objects := by
        refine List.filter_eq_self.mpr (fun o ho => ?_)
        rw [hnotmem o ho]
        rfl
      simp only [Engine.RemoveObjects, hfilter2]
    · intro hC
      exact absurd hC (by simp)

/-- Engine of the C8 witness: a world exists but holds no objects. -/
def C8engine : Engine ℚ := Engine.new.CreateWorld 0 ⟨1, 1⟩

/-- Object fed to the upsert part of the C8 witness. -/
def C8obj : Object ℚ := ⟨1, .Other, false, ⟨0, 0⟩, ⟨0, 0⟩, ⟨0, 0⟩, ⟨0, 0⟩, 0, []⟩

/-- Claim C8 witness: ids 1 and 2 are absent from the world, so the
id-addressed operations leave the engine unchanged. -/
theorem C8_missing_targets_are_noops_witness :
    C8engine.getObject 1 = none ∧
    (C8engine.AddImpulse 1 ⟨1, 1⟩ (1 / 2) = C8engine ∧
     C8engine.SetVelocity 1 ⟨1, 1⟩ = C8engine ∧
     C8engine.SetPosition 1 ⟨1, 1⟩ = C8engine ∧
     C8engine.SetAnchor 1 ⟨1, 1⟩ = C8engine ∧
     C8engine.RemoveObject 1 = C8engine ∧
     ((∀ i ∈ [1, 2], C8engine.getObject i = none) → C8engine.RemoveObjects [1, 2] = C8engine) ∧
     (C8engine.world = none → C8engine.UpsertObject C8obj = C8engine ∧
       C8engine.UpsertObjects [C8obj] = C8engine)) :=
  ⟨rfl, C8_missing_targets_are_noops C8engine 1 ⟨1, 1⟩ (1 / 2) ⟨1, 1⟩ ⟨1, 1⟩ ⟨1, 1⟩
    C8obj [C8obj] [1, 2] rfl⟩

/-! Claim C10.  AddImpulse on an existing id prepends one node and
changes nothing else. -/

/-- Claim C10: for an existing object id, AddImpulse replaces that
object by a copy whose impulse chain has exactly one new head node
(its tail the former head) and all other fields untouched, leaves every
other object lookup unchanged, and preserves the world gravity and
boundary as well as the engine scheduler fields. -/
theorem C10_addImpulse_prepends (e : Engine K) (id : Int) (dir : Vec2 K) (damping : K)
    (o : Object K) (h : e.getObject id = some o) :
    (e.AddImpulse id dir damping).getObject id
      = some { o with Impulses := ⟨dir, damping⟩ :: o.Impulses } ∧
    (∀ id2, id2 ≠ id → (e.AddImpulse id dir damping).getObject id2 = e.getObject id2) ∧
    (e.AddImpulse id dir damping).world.map World.Gravity = e.world.map World.Gravity ∧
    (e.AddImpulse id dir damping).world.map World.Boundary = e.world.map World.Boundary ∧
    (e.AddImpulse id dir damping).running = e.running ∧
    (e.AddImpulse id dir damping).lastUpdate = e.lastUpdate := by
  obtain ⟨ew, erun, esc, eus, eut, elu⟩ := e
  cases ew with
  | none => exact absurd h (by simp [Engine.getObject])
  | some w =>
    have hfind : w.Objects.find? (fun o2 => o2.ID == id) = some o := by
      simpa [Engine.getObject, World.lookup] using h
    have hoid0 := List.find?_some hfind
    have hoid : (o.ID == id) = true := hoid0
    set f : Object K → Object K :=
      fun o2 => if o2.ID == id then { o2 with Impulses := ⟨dir, damping⟩ :: o2.Impulses } else o2
      with hf
    have hid_pres : ∀ o2, (f o2).ID = o2.ID := by
      intro o2
      rw [hf]
      dsimp only
      split <;> rfl
    refine ⟨?_, ?_, rfl, rfl, rfl, rfl⟩
    · have hmapfind :
          (w.Objects.map f).find? (fun o2 => o2.ID == id)
            = (w.Objects.find? ((fun o2 => o2.ID == id) ∘ f)).map f :=
        List.find?_map f w.Objects
      have hcomp : ((fun o2 : Object K => o2.ID == id) ∘ f) = fun o2 => o2.ID == id := by
        funext o2
        simp [Function.comp, hid_pres o2]
      simp only [Engine.AddImpulse, Engine.modifyObject, Engine.getObject, World.lookup]
      rw [← hf, hmapfind, hcomp, hfind]
      simp only [Option.map_some']
      rw [hf]
      have hoideq : o.ID = id := by simpa using hoid
      simp [hoideq]
    · intro id2 hne
      have hmapfind :
          (w.Objects.map f).find? (fun o2 => o2.ID == id2)
            = (w.Objects.find? ((fun o2 => o2.ID == id2) ∘ f)).map f :=
        List.find?_map f w.Objects
      have hcomp : ((fun o2 : Object K => o2.ID == id2) ∘ f) = fun o2 => o2.ID == id2 := by
        funext o2
        simp [Function.comp, hid_pres o2]
      simp only [Engine.AddImpulse, Engine.modifyObject, Engine.getObject, World.lookup]
      rw [← hf, hmapfind, hcomp]
      cases hfind2 : w.Objects.find? (fun o2 => o2.ID == id2) with
      | none => rfl
      | some o2 =>
        have ho20 := List.find?_some hfind2
        have ho2 : (o2.ID == id2) = true := ho20
        have ho2id : o2.ID = id2 := by simpa using ho2
        have : f o2 = o2 := by
          rw [hf]
          dsimp only
          rw [if_neg]
          simp [ho2id, hne]
        simp [this]

/-- Engine of the C10 witness: one object with id 1 and an impulse
chain holding one node. -/
def C10engine : Engine ℚ :=
  (Engine.new.CreateWorld 0 ⟨100, 100⟩).UpsertObject
    ⟨1, .Creature, false, ⟨10, 10⟩, ⟨2, 3⟩, ⟨50, 50⟩, ⟨0, 0⟩, 1, [⟨⟨7, 0⟩, 1⟩]⟩

/-- Claim C10 witness: adding an impulse with zero damping to object 1
prepends the node before the existing one and touches nothing else. -/
theorem C10_addImpulse_prepends_witness :
    C10engine.getObject 1
      = some ⟨1, .Creature, false, ⟨10, 10⟩, ⟨2, 3⟩, ⟨50, 50⟩, ⟨0, 0⟩, 1, [⟨⟨7, 0⟩, 1⟩]⟩ ∧
    ((C10engine.AddImpulse 1 ⟨5, 6⟩ 0).getObject 1
      = some ⟨1, .Creature, false, ⟨10, 10⟩, ⟨2, 3⟩, ⟨50, 50⟩, ⟨0, 0⟩, 1,
          [⟨⟨5, 6⟩, 0⟩, ⟨⟨7, 0⟩, 1⟩]⟩ ∧
     (∀ id2, id2 ≠ 1 → (C10engine.AddImpulse 1 ⟨5, 6⟩ 0).getObject id2 = C10engine.getObject id2) ∧
     (C10engine.AddImpulse 1 ⟨5, 6⟩ 0).world.map World.Gravity
       = C10engine.world.map World.Gravity ∧
     (C10engine.AddImpulse 1 ⟨5, 6⟩ 0).world.map World.Boundary
       = C10engine.world.map World.Boundary ∧
     (C10engine.AddImpulse 1 ⟨5, 6⟩ 0).running = C10engine.running ∧
     (C10engine.AddImpulse 1 ⟨5, 6⟩ 0).lastUpdate = C10engine.lastUpdate) :=
  ⟨rfl, C10_addImpulse_prepends C10engine 1 ⟨5, 6⟩ 0
    ⟨1, .Creature, false, ⟨10, 10⟩, ⟨2, 3⟩, ⟨50, 50⟩, ⟨0, 0⟩, 1, [⟨⟨7, 0⟩, 1⟩]⟩ rfl⟩

/-! Claim C3.  The impulse chain walk: velocity accumulation, per-node
decay, in-place removal of negligible nodes with order preserved. -/

/-- Claim C3: one impulse pass visits the chain in order, adds each
direction scaled by the elapsed time to the velocity (removed nodes
included), decays every direction by the damping switch, and keeps
exactly the nodes whose decayed components are not both negligible, in
their original relative order, all within the same call. -/
theorem C3_applyImpulses_walk (pw : K → K → K) (e : K) (v : Vec2 K)
    (chain : List (Impulse K)) (_he : 0 < e) :
    _applyImpulsesAux pw e v chain =
      (⟨v.X + (chain.map (fun i => i.Direction.X)).sum * e,
        v.Y + (chain.map (fun i => i.Direction.Y)).sum * e⟩,
       (chain.map (fun i => Impulse.mk (decayDirection pw i.Damping e i.Direction) i.Damping)).filter
         (fun i => decide (¬(mathAbs i.Direction.X < negligibleFloat K ∧
                             mathAbs i.Direction.Y < negligibleFloat K)))) := by
  induction chain generalizing v with
  | nil => simp [_applyImpulsesAux]
  | cons imp rest ih =>
    by_cases hneg : mathAbs (decayDirection pw imp.Damping e imp.Direction).X < negligibleFloat K ∧
        mathAbs (decayDirection pw imp.Damping e imp.Direction).Y < negligibleFloat K
    · have hstep : _applyImpulsesAux pw e v (imp :: rest)
          = _applyImpulsesAux pw e ⟨v.X + imp.Direction.X * e, v.Y + imp.Direction.Y * e⟩ rest := by
        simp [_applyImpulsesAux, hneg]
      rw [hstep, ih]
      simp only [List.map_cons, List.sum_cons, List.filter_cons, hneg]
      simp only [Prod.mk.injEq, Vec2.mk.injEq]
      refine ⟨⟨by ring, by ring⟩, by simp [hneg]⟩
    · have hstep : _applyImpulsesAux pw e v (imp :: rest)
          = ((_applyImpulsesAux pw e ⟨v.X + imp.Direction.X * e, v.Y + imp.Direction.Y * e⟩ rest).1,
             ⟨decayDirection pw imp.Damping e imp.Direction, imp.Damping⟩ ::
               (_applyImpulsesAux pw e ⟨v.X + imp.Direction.X * e, v.Y + imp.Direction.Y * e⟩ rest).2) := by
        simp [_applyImpulsesAux, hneg]
      rw [hstep, ih]
      simp only [List.map_cons, List.sum_cons, List.filter_cons]
      simp only [Prod.mk.injEq, Vec2.mk.injEq]
      refine ⟨⟨by ring, by ring⟩, by simp [hneg]⟩

/-- Claim C3 witness: a chain of two nodes, the first decayed by its
damping and kept, the second (a constant-force impulse already below
the threshold) removed in the same pass; both contribute to velocity. -/
theorem C3_applyImpulses_walk_witness :
    (0 : ℚ) < 1 ∧
    _applyImpulsesAux (fun a _ => a) 1 ⟨0, 0⟩
        [⟨⟨10, 0⟩, 9/10⟩, ⟨⟨1/200, 1/200⟩, 1⟩] =
      (⟨0 + (([⟨⟨10, 0⟩, 9/10⟩, ⟨⟨1/200, 1/200⟩, 1⟩] :
              List (Impulse ℚ)).map (fun i => i.Direction.X)).sum * 1,
        0 + (([⟨⟨10, 0⟩, 9/10⟩, ⟨⟨1/200, 1/200⟩, 1⟩] :
              List (Impulse ℚ)).map (fun i => i.Direction.Y)).sum * 1⟩,
       (([⟨⟨10, 0⟩, 9/10⟩, ⟨⟨1/200, 1/200⟩, 1⟩] : List (Impulse ℚ)).map
           (fun i => Impulse.mk (decayDirection (fun a _ => a) i.Damping 1 i.Direction) i.Damping)).filter
         (fun i => decide (¬(mathAbs i.Direction.X < negligibleFloat ℚ ∧
                             mathAbs i.Direction.Y < negligibleFloat ℚ)))) :=
  ⟨by norm_num,
   C3_applyImpulses_walk (fun a _ => a) 1 ⟨0, 0⟩
     [⟨⟨10, 0⟩, 9/10⟩, ⟨⟨1/200, 1/200⟩, 1⟩] (by norm_num)⟩

/-! Claim C5.  Exponential decay composes additively in the elapsed
time, under the real-number semantics of math.Pow. -/

/-- Claim C5: for damping strictly between the negligible threshold and
one and positive elapsed times, decaying a direction for e1 and then e2
equals decaying it once for e1 + e2, with math.Pow read as the real
power function. -/
theorem C5_decay_composes (d e1 e2 : ℝ) (v : Vec2 ℝ)
    (hlo : negligibleFloat ℝ < d) (hhi : d < 1) (_he1 : 0 < e1) (_he2 : 0 < e2) :
    decayDirection (fun a b => Real.rpow a b) d e2
        (decayDirection (fun a b => Real.rpow a b) d e1 v)
      = decayDirection (fun a b => Real.rpow a b) d (e1 + e2) v := by
  have hdpos : (0 : ℝ) < d := lt_trans (by norm_num [negligibleFloat]) hlo
  have hne1 : d ≠ 1 := ne_of_lt hhi
  have hnle : ¬ d ≤ negligibleFloat ℝ := not_le.mpr hlo
  have hpow : Real.rpow d (e1 + e2) = Real.rpow d e1 * Real.rpow d e2 :=
    Real.rpow_add hdpos e1 e2
  simp only [decayDirection, if_neg hne1, if_neg hnle]
  simp only [Vec2.mk.injEq]
  constructor <;> (rw [hpow]; ring)

/-- Claim C5 witness: damping one half, both elapsed times one. -/
theorem C5_decay_composes_witness :
    negligibleFloat ℝ < (1/2 : ℝ) ∧ (1/2 : ℝ) < 1 ∧ (0 : ℝ) < 1 ∧
    decayDirection (fun a b => Real.rpow a b) (1/2) 1
        (decayDirection (fun a b => Real.rpow a b) (1/2) 1 ⟨1, 0⟩)
      = decayDirection (fun a b => Real.rpow a b) (1/2) (1 + 1) ⟨1, 0⟩ :=
  ⟨by norm_num [negligibleFloat], by norm_num, by norm_num,
   C5_decay_composes (1/2) 1 1 ⟨1, 0⟩ (by norm_num [negligibleFloat])
     (by norm_num) (by norm_num) (by norm_num)⟩

/-! Decoding inverts encoding, token by token, with any trailing
stream. -/

theorem typeTag_roundtrip (ty : ObjectType) : objectTypeOfTag (objectTypeTag ty) = some ty := by
  cases ty <;> rfl

theorem parseVector_ser (v : Vec2 K) (t : List (Token K)) :
    parseVector (serializeVector v ++ t) = some (v, t) := rfl

theorem parseType_ser (ty : ObjectType) (t : List (Token K)) :
    parseType (.tag (objectTypeTag ty) :: t) = some (ty, t) := by
  cases ty <;> rfl

theorem parseImpulseNode_ser (i : Impulse K) (t : List (Token K)) :
    parseImpulseNode (serializeImpulseNode i ++ t) = some (i, t) := rfl

theorem parseImpulsesN_ser (chain : List (Impulse K)) (t : List (Token K)) :
    parseImpulsesN chain.length ((chain.map serializeImpulseNode).flatten ++ t)
      = some (chain, t) := by
  induction chain generalizing t with
  | nil => rfl
  | cons i rest ih =>
    simp only [List.map_cons, List.flatten_cons, List.length_cons, List.append_assoc]
    simp only [parseImpulsesN, parseImpulseNode_ser, Option.some_bind, ih]

theorem parseImpulses_ser (chain : List (Impulse K)) (t : List (Token K)) :
    parseImpulses (serializeImpulses chain ++ t) = some (chain, t) := by
  simp only [serializeImpulses, List.cons_append, parseImpulses, parseTag, Option.some_bind,
    parseImpulsesN_ser]

/-- The ID narrowing the codec applies to an object on its way through
the wire: encode stores int32(obj.ID) and decode widens it back. -/
def wrapObjectID (o : Object K) : Object K := { o with ID := wrapInt32 o.ID }

/-- The ID narrowing applied to every object of a world. -/
def wrapWorldIDs (w : World K) : World K :=
  { w with Objects := w.Objects.map wrapObjectID }

/-- An integer already in the int32 range is unchanged by the int32
conversion. -/
theorem wrapInt32_eq_self (n : Int) (hlo : -(2 ^ 31) ≤ n) (hhi : n < 2 ^ 31) :
    wrapInt32 n = n := by
  unfold wrapInt32
  have hsplit : (2 : Int) ^ 32 = 2 ^ 31 + 2 ^ 31 := by norm_num
  have h0 : 0 ≤ n + 2 ^ 31 := by linarith
  have h1 : n + 2 ^ 31 < 2 ^ 32 := by rw [hsplit]; linarith
  rw [Int.emod_eq_of_lt h0 h1]
  ring

theorem parseObject_ser (o : Object K) (t : List (Token K)) :
    parseObject (serializeObject o ++ t) = some (wrapObjectID o, t) := by
  obtain ⟨id, ty, cl, sz, vl, ps, an, gf, ch⟩ := o
  simp only [serializeObject, serializeVector, List.append_assoc, List.cons_append,
    List.nil_append]
  simp only [parseObject, parseInt, Option.some_bind, parseType, parseTag,
    typeTag_roundtrip, parseFlag, parseVector, parseNum, parseImpulses_ser, wrapObjectID]

theorem parseObjectsN_ser (objs : List (Object K)) (t : List (Token K)) :
    parseObjectsN objs.length ((objs.map serializeObject).flatten ++ t)
      = some (objs.map wrapObjectID, t) := by
  induction objs generalizing t with
  | nil => rfl
  | cons o rest ih =>
    simp only [List.map_cons, List.flatten_cons, List.length_cons, List.append_assoc]
    simp only [parseObjectsN, parseObject_ser, Option.some_bind, ih]

theorem parseWorld_ser (w : World K) (t : List (Token K)) :
    parseWorld (serializeWorldToBytes w ++ t) = some (wrapWorldIDs w, t) := by
  obtain ⟨g, b, objs⟩ := w
  simp only [serializeWorldToBytes, serializeVector, List.append_assoc, List.cons_append,
    List.nil_append]
  simp only [parseWorld, parseNum, Option.some_bind, parseVector, parseTag,
    parseObjectsN_ser, wrapWorldIDs]

/-! Claim C4.  The codec narrows every object ID to int32 on encode
(int32(obj.ID)) and widens it back on decode, so the round trip
preserves a world exactly when its IDs fit in the int32 range; an
out-of-range ID comes back wrapped. -/

/-- World of the C4 counterexample: one object whose ID is 2^31, just
outside the int32 range. -/
def C4bigWorld : World ℚ :=
  ⟨0, ⟨0, 0⟩, [⟨2 ^ 31, .Other, false, ⟨0, 0⟩, ⟨0, 0⟩, ⟨0, 0⟩, ⟨0, 0⟩, 0, []⟩]⟩

/-- Claim C4 counterexample: encoding and then decoding the world whose
only object has ID 2^31 yields that object with ID wrapped to -2^31,
not the original world. -/
theorem C4_counterexample :
    deserializeWorldFromBytes (serializeWorldToBytes C4bigWorld)
      = some ⟨0, ⟨0, 0⟩, [⟨-(2 ^ 31), .Other, false, ⟨0, 0⟩, ⟨0, 0⟩, ⟨0, 0⟩, ⟨0, 0⟩, 0, []⟩]⟩ ∧
    deserializeWorldFromBytes (serializeWorldToBytes C4bigWorld) ≠ some C4bigWorld := by
  have h := parseWorld_ser C4bigWorld []
  rw [List.append_nil] at h
  have hne : (serializeWorldToBytes C4bigWorld).isEmpty = false := by
    simp [serializeWorldToBytes]
  have hwrap : wrapInt32 2147483648 = -2147483648 := by decide
  have hwrapped : wrapWorldIDs C4bigWorld
      = ⟨0, ⟨0, 0⟩, [⟨-(2 ^ 31), .Other, false, ⟨0, 0⟩, ⟨0, 0⟩, ⟨0, 0⟩, ⟨0, 0⟩, 0, []⟩]⟩ := by
    simp [wrapWorldIDs, wrapObjectID, C4bigWorld, hwrap]
  rw [hwrapped] at h
  have hdec : deserializeWorldFromBytes (serializeWorldToBytes C4bigWorld)
      = some ⟨0, ⟨0, 0⟩, [⟨-(2 ^ 31), .Other, false, ⟨0, 0⟩, ⟨0, 0⟩, ⟨0, 0⟩, ⟨0, 0⟩, 0, []⟩]⟩ := by
    simp [deserializeWorldFromBytes, hne, h]
  refine ⟨hdec, ?_⟩
  rw [hdec]
  intro hcontra
  simp [C4bigWorld] at hcontra

/-- Claim C4 (amended): for every world all of whose object IDs fit in
the int32 range, decoding the buffer produced by encoding it yields
exactly that world back: same gravity, same boundary, the object table
rebuilt from the decoded objects with every physics field equal and
every impulse chain in the same head-first order. -/
theorem C4_codec_roundtrip (w : World K)
    (hids : ∀ o ∈ w.Objects, -(2 ^ 31) ≤ o.ID ∧ o.ID < 2 ^ 31) :
    deserializeWorldFromBytes (serializeWorldToBytes w) = some w := by
  have h := parseWorld_ser w []
  rw [List.append_nil] at h
  have hmap : w.Objects.map wrapObjectID = w.Objects := by
    refine list_map_id_of_mem _ _ (fun o ho => ?_)
    have hb := hids o ho
    simp [wrapObjectID, wrapInt32_eq_self o.ID hb.1 hb.2]
  have hfix : wrapWorldIDs w = w := by
    unfold wrapWorldIDs
    rw [hmap]
  rw [hfix] at h
  have hne : (serializeWorldToBytes w).isEmpty = false := by
    simp [serializeWorldToBytes]
  simp [deserializeWorldFromBytes, hne, h]

/-- World of the C4 witness: two objects with in-range IDs, one of them
carrying a two-node impulse chain. -/
def C4witWorld : World ℚ :=
  ⟨49/5, ⟨100, 100⟩,
   [⟨1, .Creature, false, ⟨10, 10⟩, ⟨0, -1⟩, ⟨50, 40⟩, ⟨0, 0⟩, 1,
      [⟨⟨3, 4⟩, 9/10⟩, ⟨⟨-1, 0⟩, 1⟩]⟩,
    ⟨2, .Item, true, ⟨2, 2⟩, ⟨0, 0⟩, ⟨10, 10⟩, ⟨0, 1⟩, 0, []⟩]⟩

/-- Claim C4 witness: the concrete world with a multi-node impulse
chain round-trips unchanged. -/
theorem C4_codec_roundtrip_witness :
    (∀ o ∈ C4witWorld.Objects, -(2 ^ 31) ≤ o.ID ∧ o.ID < 2 ^ 31) ∧
    deserializeWorldFromBytes (serializeWorldToBytes C4witWorld) = some C4witWorld :=
  ⟨by decide, C4_codec_roundtrip C4witWorld (by decide)⟩

/-! Claim C6.  The decode entry point has no failure channel: the
source function returns only an optional world, so on malformed input
it can never report the decode failure the claim describes; the
empty-input half of the claim is implemented and holds. -/

/-- Claim C6: empty input decodes to no world (the guard present in the
source, the same result as a never-created world); the concrete
nonempty failing input, the single boolean token, lies outside the wire
grammar, so no parse of it exists; and every outcome the caller of the
decoder can ever receive is either no world or a built world — there is
no third, failure-reporting outcome in its result type, matching the
source signature that returns only an optional world. -/
theorem C6_empty_ok_malformed_unreportable :
    deserializeWorldFromBytes ([] : List (Token ℚ)) = none ∧
    parseWorld ([.flag true] : List (Token ℚ)) = none ∧
    (∀ data : List (Token ℚ), deserializeWorldFromBytes data = none ∨
        ∃ w2, deserializeWorldFromBytes data = some w2) := by
  refine ⟨rfl, rfl, ?_⟩
  intro data
  cases hres : deserializeWorldFromBytes data with
  | none => exact Or.inl rfl
  | some w2 => exact Or.inr ⟨w2, rfl⟩

end SlashEngine
